import Mathlib

/-!
Shallow embedding of the `rust-tmll` linked-list repository
(src/first.rs, src/second.rs, src/third.rs) and proofs of its
specified properties.

Rust's `Box<Node>` / `Rc<Node>` indirections carry no observable data in a
value-level semantics, so a boxed node is embedded as the node itself.
Mutation through `&mut self` is embedded as explicit state passing: a Rust
method `fn f(&mut self, x) -> R` becomes a Lean function
`f : State → X → R × State` (or `State → X → State` when it returns unit).
Machine integers `i32` are embedded as `Int` (no arithmetic is performed on
them anywhere in the repository, so overflow never matters).
-/

/-! ## first.rs — the exclusive i32 stack -/

mutual

/-- `enum Link { Empty, More(Box<Node>) }` from first.rs.
The box only provides heap indirection; its payload is the node. -/
inductive FirstLink : Type where
  | Empty : FirstLink
  | More (node : FirstNode) : FirstLink

/-- `struct Node { elem: i32, next: Link }` from first.rs. -/
inductive FirstNode : Type where
  | mk (elem : Int) (next : FirstLink) : FirstNode

end

/-- Field `elem` of a first.rs `Node`. -/
def FirstNode.elem : FirstNode → Int
  | FirstNode.mk e _ => e

/-- Field `next` of a first.rs `Node`. -/
def FirstNode.next : FirstNode → FirstLink
  | FirstNode.mk _ n => n

/-- `pub struct List { head: Link }` from first.rs. -/
structure FirstList : Type where
  head : FirstLink

/-- `List::new()` from first.rs: a list with an empty head link. -/
def FirstList.new : FirstList :=
  { head := FirstLink.Empty }

/-- `List::push(&mut self, elem: i32)` from first.rs: allocate a node whose
`next` is the old head (moved out via `mem::replace`) and make it the head. -/
def FirstList.push (self : FirstList) (elem : Int) : FirstList :=
  { head := FirstLink.More (FirstNode.mk elem self.head) }

/-- `List::pop(&mut self) -> Option<i32>` from first.rs: `mem::replace` the
head with `Empty`; on `Empty` return `None` (head stays `Empty`), on
`More(node)` the node's `next` becomes the head and its `elem` is returned. -/
def FirstList.pop (self : FirstList) : Option Int × FirstList :=
  match self.head with
  | FirstLink.Empty => (none, { head := FirstLink.Empty })
  | FirstLink.More node => (some node.elem, { head := node.next })

mutual

/-- Elements stored along a first.rs link chain, head first. -/
def FirstLink.elems : FirstLink → List Int
  | FirstLink.Empty => []
  | FirstLink.More node => FirstNode.elemsFrom node

/-- Elements stored in a first.rs node and its successors. -/
def FirstNode.elemsFrom : FirstNode → List Int
  | FirstNode.mk e next => e :: FirstLink.elems next

end

/-- Elements of a first.rs list, top of stack first. -/
def FirstList.elems (self : FirstList) : List Int :=
  self.head.elems

mutual

/-- Number of iterations the `while let` loop of `impl Drop for List`
(first.rs) performs before `cur_link` becomes `Empty`: one per node. -/
def FirstLink.dropLoopIters : FirstLink → Nat
  | FirstLink.Empty => 0
  | FirstLink.More node => FirstNode.dropLoopItersFrom node

/-- Iterations of the first.rs drop loop starting from a boxed node. -/
def FirstNode.dropLoopItersFrom : FirstNode → Nat
  | FirstNode.mk _ next => FirstLink.dropLoopIters next + 1

end

/-- Apply `pop` to a first.rs list `n` times, keeping the final state. -/
def FirstList.popTimes (self : FirstList) : Nat → FirstList
  | 0 => self
  | n + 1 => (self.pop).2.popTimes n

/-- Push every element of `es` in order onto a first.rs list. -/
def FirstList.pushAll (self : FirstList) (es : List Int) : FirstList :=
  es.foldl FirstList.push self

/-! ## second.rs — the generic stack with iterators -/

/-- `struct Node<T> { elem: T, next: Link<T> }` from second.rs, where
`type Link<T> = Option<Box<Node<T>>>`; the box is pure indirection, so the
link is embedded as `Option (SecondNode T)`. -/
inductive SecondNode (T : Type) : Type where
  | mk (elem : T) (next : Option (SecondNode T)) : SecondNode T

/-- `type Link<T> = Option<Box<Node<T>>>` from second.rs. -/
abbrev SecondLink (T : Type) : Type := Option (SecondNode T)

/-- Field `elem` of a second.rs `Node<T>`. -/
def SecondNode.elem {T : Type} : SecondNode T → T
  | SecondNode.mk e _ => e

/-- Field `next` of a second.rs `Node<T>`. -/
def SecondNode.next {T : Type} : SecondNode T → SecondLink T
  | SecondNode.mk _ n => n

/-- `pub struct List<T> { head: Link<T> }` from second.rs. -/
structure SecondList (T : Type) : Type where
  head : SecondLink T

/-- `List::new()` from second.rs. -/
def SecondList.new {T : Type} : SecondList T :=
  { head := none }

/-- `List::push(&mut self, elem: T)` from second.rs: the new node takes the
old head via `self.head.take()` and becomes the new head. -/
def SecondList.push {T : Type} (self : SecondList T) (elem : T) : SecondList T :=
  { head := some (SecondNode.mk elem self.head) }

/-- `List::pop(&mut self) -> Option<T>` from second.rs:
`self.head.take().map(|node| { self.head = node.next; node.elem })`.
When the head is `None`, `take` leaves it `None` and `map` returns `None`. -/
def SecondList.pop {T : Type} (self : SecondList T) : Option T × SecondList T :=
  match self.head with
  | none => (none, { head := none })
  | some node => (some node.elem, { head := node.next })

/-- `List::peek(&self) -> Option<&T>` from second.rs: a view of the top
element (`self.head.as_ref().map(|node| &node.elem)`), value of the
reference. -/
def SecondList.peek {T : Type} (self : SecondList T) : Option T :=
  self.head.map SecondNode.elem

/-- `List::peek_mut(&mut self) -> Option<&mut T>` from second.rs: the value
seen through the returned mutable reference
(`self.head.as_mut().map(|node| &mut node.elem)`). -/
def SecondList.peek_mut {T : Type} (self : SecondList T) : Option T :=
  self.head.map SecondNode.elem

/-- Writing `v` through the reference returned by `peek_mut`, as the
second.rs `peek` test does with `list.peek_mut().map(|value| *value = 42)`:
the top node's `elem` field is overwritten in place; when the list is empty
`peek_mut` returns `None` and nothing is written. -/
def SecondList.peekMutWrite {T : Type} (self : SecondList T) (v : T) : SecondList T :=
  match self.head with
  | none => { head := none }
  | some node => { head := some (SecondNode.mk v node.next) }

/-- Apply `pop` to a second.rs list `n` times, keeping the final state. -/
def SecondList.popTimes {T : Type} (self : SecondList T) : Nat → SecondList T
  | 0 => self
  | n + 1 => (self.pop).2.popTimes n

/-- Push every element of `es` in order onto a second.rs list. -/
def SecondList.pushAll {T : Type} (self : SecondList T) (es : List T) : SecondList T :=
  es.foldl SecondList.push self

/-- Elements stored along a second.rs link chain, head first. -/
def SecondLink.elemsL {T : Type} : SecondLink T → List T
  | none => []
  | some (SecondNode.mk e next) => e :: SecondLink.elemsL next

/-- Elements of a second.rs list, top of stack first. -/
def SecondList.elems {T : Type} (self : SecondList T) : List T :=
  SecondLink.elemsL self.head

/-- Number of iterations of the `while let` loop of
`impl<T> Drop for List<T>` (second.rs): one per node. -/
def SecondLink.dropLoopItersL {T : Type} : SecondLink T → Nat
  | none => 0
  | some (SecondNode.mk _ next) => SecondLink.dropLoopItersL next + 1

/-- `pub struct IntoIter<T>(List<T>)` from second.rs. -/
structure SecondIntoIter (T : Type) : Type where
  list : SecondList T

/-- `pub struct Iter<'a, T> { next: Option<&'a Node<T>> }` from second.rs;
the borrowed node is embedded by value. -/
structure SecondIter (T : Type) : Type where
  next : Option (SecondNode T)

/-- `pub struct IterMut<'a, T> { next: Option<&'a mut Node<T>> }` from
second.rs; the borrowed node is embedded by value. -/
structure SecondIterMut (T : Type) : Type where
  next : Option (SecondNode T)

/-- `List::into_iter(self)` from second.rs: wraps the list by value. -/
def SecondList.into_iter {T : Type} (self : SecondList T) : SecondIntoIter T :=
  { list := self }

/-- `List::iter(&self)` from second.rs: `Iter { next: self.head.as_deref() }`. -/
def SecondList.iter {T : Type} (self : SecondList T) : SecondIter T :=
  { next := self.head }

/-- `List::iter_mut(&mut self)` from second.rs:
`IterMut { next: self.head.as_deref_mut() }`. -/
def SecondList.iter_mut {T : Type} (self : SecondList T) : SecondIterMut T :=
  { next := self.head }

/-- `Iterator::next` for `IntoIter<T>` (second.rs): `self.0.pop()`. -/
def SecondIntoIter.nextStep {T : Type} (self : SecondIntoIter T) :
    Option T × SecondIntoIter T :=
  ((self.list.pop).1, { list := (self.list.pop).2 })

/-- `Iterator::next` for `Iter<'a, T>` (second.rs):
`self.next.map(|node| { self.next = node.next.as_deref(); &node.elem })`;
when `self.next` is `None` the map does nothing and the state is unchanged. -/
def SecondIter.nextStep {T : Type} (self : SecondIter T) :
    Option T × SecondIter T :=
  match self.next with
  | none => (none, { next := none })
  | some node => (some node.elem, { next := node.next })

/-- `Iterator::next` for `IterMut<'a, T>` (second.rs):
`self.next.take().map(|node| { self.next = node.next.as_deref_mut(); &mut node.elem })`. -/
def SecondIterMut.nextStep {T : Type} (self : SecondIterMut T) :
    Option T × SecondIterMut T :=
  match self.next with
  | none => (none, { next := none })
  | some node => (some node.elem, { next := node.next })

/-- Advance a second.rs `IntoIter` by `n` calls to `next`. -/
def SecondIntoIter.stepN {T : Type} (self : SecondIntoIter T) : Nat → SecondIntoIter T
  | 0 => self
  | n + 1 => (self.nextStep).2.stepN n

/-- Advance a second.rs `Iter` by `n` calls to `next`. -/
def SecondIter.stepN {T : Type} (self : SecondIter T) : Nat → SecondIter T
  | 0 => self
  | n + 1 => (self.nextStep).2.stepN n

/-- Advance a second.rs `IterMut` by `n` calls to `next`. -/
def SecondIterMut.stepN {T : Type} (self : SecondIterMut T) : Nat → SecondIterMut T
  | 0 => self
  | n + 1 => (self.nextStep).2.stepN n

/-! ## third.rs — the persistent reference-counted list -/

/-- `struct Node<T> { elem: T, next: Link<T> }` from third.rs, where
`type Link<T> = Option<Rc<Node<T>>>`; `Rc` is shared-ownership indirection
with no observable payload of its own, so the link is embedded as
`Option (ThirdNode T)` and `Rc::clone` as value sharing. -/
inductive ThirdNode (T : Type) : Type where
  | mk (elem : T) (next : Option (ThirdNode T)) : ThirdNode T

/-- `type Link<T> = Option<Rc<Node<T>>>` from third.rs. -/
abbrev ThirdLink (T : Type) : Type := Option (ThirdNode T)

/-- Field `elem` of a third.rs `Node<T>`. -/
def ThirdNode.elem {T : Type} : ThirdNode T → T
  | ThirdNode.mk e _ => e

/-- Field `next` of a third.rs `Node<T>`. -/
def ThirdNode.next {T : Type} : ThirdNode T → ThirdLink T
  | ThirdNode.mk _ n => n

/-- `pub struct List<T> { head: Link<T> }` from third.rs. -/
structure ThirdList (T : Type) : Type where
  head : ThirdLink T

/-- `List::new()` from third.rs. -/
def ThirdList.new {T : Type} : ThirdList T :=
  { head := none }

/-- `List::prepend(&self, elem: T) -> List<T>` from third.rs: a new list
whose head node holds `elem` and shares (`self.head.clone()`) the original
chain as its `next`. `self` is only borrowed immutably. -/
def ThirdList.prepend {T : Type} (self : ThirdList T) (elem : T) : ThirdList T :=
  { head := some (ThirdNode.mk elem self.head) }

/-- `List::head(&self) -> Option<&T>` from third.rs:
`self.head.as_ref().map(|node| &node.elem)`, value of the reference. -/
def ThirdList.headElem {T : Type} (self : ThirdList T) : Option T :=
  self.head.map ThirdNode.elem

/-- `List::tail(&self) -> List<T>` from third.rs:
`List { head: self.head.as_ref().and_then(|node| node.next.clone()) }`. -/
def ThirdList.tail {T : Type} (self : ThirdList T) : ThirdList T :=
  { head := self.head.bind ThirdNode.next }

/-- Elements stored along a third.rs link chain, head first. -/
def ThirdLink.elemsL {T : Type} : ThirdLink T → List T
  | none => []
  | some (ThirdNode.mk e next) => e :: ThirdLink.elemsL next

/-- Elements of a third.rs list, head first. -/
def ThirdList.elems {T : Type} (self : ThirdList T) : List T :=
  ThirdLink.elemsL self.head

/-- Modelled from Rust's drop semantics: third.rs implements no `Drop` for
its `List<T>`, so when the last owner of a chain is dropped the
compiler-generated drop glue runs — dropping a node drops its `next` link,
which (at reference count zero) drops the next node, one nested call per
node. This counts that nesting depth for a uniquely-owned chain. -/
def ThirdNode.dropGlueDepth {T : Type} : ThirdNode T → Nat
  | ThirdNode.mk _ none => 1
  | ThirdNode.mk _ (some n) => ThirdNode.dropGlueDepth n + 1

/-- Drop-glue nesting depth for a whole uniquely-owned third.rs link. -/
def ThirdLink.dropGlueDepth {T : Type} : ThirdLink T → Nat
  | none => 0
  | some node => node.dropGlueDepth

/-- A third.rs list of `n` nodes, built by `n` prepends. -/
def ThirdList.ofLen : Nat → ThirdList Nat
  | 0 => ThirdList.new
  | n + 1 => (ThirdList.ofLen n).prepend n

/-! ## Operation scripts, for comparing first.rs with second.rs -/

/-- A stack operation: either `push(v)` or `pop()`. -/
inductive StackOp : Type where
  | push (v : Int) : StackOp
  | pop : StackOp

/-- Run a script of operations on a first.rs list, recording the result of
every `pop`. -/
def FirstList.runOps (self : FirstList) : List StackOp → List (Option Int)
  | [] => []
  | StackOp.push v :: ops => (self.push v).runOps ops
  | StackOp.pop :: ops => (self.pop).1 :: (self.pop).2.runOps ops

/-- Run a script of operations on a second.rs list over `i32`, recording
the result of every `pop`. -/
def SecondList.runOps (self : SecondList Int) : List StackOp → List (Option Int)
  | [] => []
  | StackOp.push v :: ops => (self.push v).runOps ops
  | StackOp.pop :: ops => (self.pop).1 :: (self.pop).2.runOps ops

/-! ## Basic lemmas about the embedded operations -/

@[simp] theorem FirstNode.elem_mk_first (e : Int) (n : FirstLink) :
    (FirstNode.mk e n).elem = e := rfl

@[simp] theorem FirstNode.next_mk_first (e : Int) (n : FirstLink) :
    (FirstNode.mk e n).next = n := rfl

@[simp] theorem FirstLink.elems_Empty : FirstLink.Empty.elems = [] := by
  simp [FirstLink.elems]

@[simp] theorem FirstLink.elems_More (e : Int) (next : FirstLink) :
    (FirstLink.More (FirstNode.mk e next)).elems = e :: next.elems := by
  simp [FirstLink.elems, FirstNode.elemsFrom]

@[simp] theorem FirstList.elems_new_first : FirstList.new.elems = [] := by
  simp [FirstList.new, FirstList.elems]

@[simp] theorem FirstList.elems_push_first (l : FirstList) (e : Int) :
    (l.push e).elems = e :: l.elems := by
  simp [FirstList.push, FirstList.elems]

@[simp] theorem FirstList.pop_fst_first (l : FirstList) :
    ((l.pop)).1 = l.elems.head? := by
  obtain ⟨head⟩ := l
  cases head with
  | Empty => simp [FirstList.pop, FirstList.elems]
  | More node =>
    obtain ⟨e, next⟩ := node
    simp [FirstList.pop, FirstList.elems]

@[simp] theorem FirstList.pop_snd_elems_first (l : FirstList) :
    (((l.pop)).2).elems = l.elems.tail := by
  obtain ⟨head⟩ := l
  cases head with
  | Empty => simp [FirstList.pop, FirstList.elems]
  | More node =>
    obtain ⟨e, next⟩ := node
    simp [FirstList.pop, FirstList.elems]

@[simp] theorem SecondNode.elem_mk_second {T : Type} (e : T) (n : SecondLink T) :
    (SecondNode.mk e n).elem = e := rfl

@[simp] theorem SecondNode.next_mk_second {T : Type} (e : T) (n : SecondLink T) :
    (SecondNode.mk e n).next = n := rfl

@[simp] theorem SecondLink.elemsL_none_second {T : Type} :
    SecondLink.elemsL (none : SecondLink T) = [] := by
  simp [SecondLink.elemsL]

@[simp] theorem SecondLink.elemsL_some_second {T : Type} (e : T) (next : SecondLink T) :
    SecondLink.elemsL (some (SecondNode.mk e next)) = e :: SecondLink.elemsL next := by
  simp [SecondLink.elemsL]

@[simp] theorem SecondList.elems_new_second {T : Type} :
    (SecondList.new : SecondList T).elems = [] := by
  simp [SecondList.new, SecondList.elems]

@[simp] theorem SecondList.elems_push_second {T : Type} (l : SecondList T) (e : T) :
    (l.push e).elems = e :: l.elems := by
  simp [SecondList.push, SecondList.elems]

@[simp] theorem SecondList.pop_fst_second {T : Type} (l : SecondList T) :
    ((l.pop)).1 = l.elems.head? := by
  obtain ⟨head⟩ := l
  cases head with
  | none => simp [SecondList.pop, SecondList.elems]
  | some node =>
    obtain ⟨e, next⟩ := node
    simp [SecondList.pop, SecondList.elems]

@[simp] theorem SecondList.pop_snd_elems_second {T : Type} (l : SecondList T) :
    (((l.pop)).2).elems = l.elems.tail := by
  obtain ⟨head⟩ := l
  cases head with
  | none => simp [SecondList.pop, SecondList.elems]
  | some node =>
    obtain ⟨e, next⟩ := node
    simp [SecondList.pop, SecondList.elems]

@[simp] theorem ThirdNode.elem_mk_third {T : Type} (e : T) (n : ThirdLink T) :
    (ThirdNode.mk e n).elem = e := rfl

@[simp] theorem ThirdNode.next_mk_third {T : Type} (e : T) (n : ThirdLink T) :
    (ThirdNode.mk e n).next = n := rfl

@[simp] theorem ThirdLink.elemsL_none_third {T : Type} :
    ThirdLink.elemsL (none : ThirdLink T) = [] := by
  simp [ThirdLink.elemsL]

@[simp] theorem ThirdLink.elemsL_some_third {T : Type} (e : T) (next : ThirdLink T) :
    ThirdLink.elemsL (some (ThirdNode.mk e next)) = e :: ThirdLink.elemsL next := by
  simp [ThirdLink.elemsL]

/-! ## Derived lemmas -/

/-- The `i`-th successive `pop` (counting from 0) on a first.rs list returns
the `i`-th element of the current element sequence. -/
theorem FirstList.popTimes_pop_fst_first (i : Nat) (l : FirstList) :
    (((l.popTimes i).pop)).1 = l.elems[i]? := by
  induction i generalizing l with
  | zero =>
    rw [FirstList.popTimes, FirstList.pop_fst_first]
    cases l.elems <;> simp
  | succ i ih =>
    rw [FirstList.popTimes, ih]
    rw [FirstList.pop_snd_elems_first]
    cases l.elems <;> simp

/-- The `i`-th successive `pop` (counting from 0) on a second.rs list
returns the `i`-th element of the current element sequence. -/
theorem SecondList.popTimes_pop_fst_second {T : Type} (i : Nat) (l : SecondList T) :
    (((l.popTimes i).pop)).1 = l.elems[i]? := by
  induction i generalizing l with
  | zero =>
    rw [SecondList.popTimes, SecondList.pop_fst_second]
    cases l.elems <;> simp
  | succ i ih =>
    rw [SecondList.popTimes, ih]
    rw [SecondList.pop_snd_elems_second]
    cases l.elems <;> simp

/-- Pushing `es` in order puts the elements on a first.rs stack in reverse
order, on top of what was there. -/
theorem FirstList.pushAll_elems_first (es : List Int) (l : FirstList) :
    (l.pushAll es).elems = es.reverse ++ l.elems := by
  induction es generalizing l with
  | nil => simp [FirstList.pushAll]
  | cons e es ih =>
    have h1 : l.pushAll (e :: es) = (l.push e).pushAll es := rfl
    rw [h1, ih]
    simp

/-- Pushing `es` in order puts the elements on a second.rs stack in reverse
order, on top of what was there. -/
theorem SecondList.pushAll_elems_second {T : Type} (es : List T) (l : SecondList T) :
    (l.pushAll es).elems = es.reverse ++ l.elems := by
  induction es generalizing l with
  | nil => simp [SecondList.pushAll]
  | cons e es ih =>
    have h1 : l.pushAll (e :: es) = (l.push e).pushAll es := rfl
    rw [h1, ih]
    simp

/-- Popping an empty second.rs list any number of times leaves it empty. -/
theorem SecondList.popTimes_new {T : Type} (k : Nat) :
    (SecondList.new : SecondList T).popTimes k = SecondList.new := by
  induction k with
  | zero => rfl
  | succ k ih =>
    rw [SecondList.popTimes]
    have h1 : ((SecondList.new : SecondList T).pop).2 = SecondList.new := rfl
    rw [h1, ih]

/-- A first.rs list and a second.rs list over `i32` holding the same
elements produce the same outputs on any operation script. -/
theorem runOps_agree (ops : List StackOp) (f : FirstList) (s : SecondList Int)
    (h : f.elems = s.elems) : f.runOps ops = s.runOps ops := by
  induction ops generalizing f s with
  | nil => rfl
  | cons op ops ih =>
    cases op with
    | push v =>
      rw [FirstList.runOps, SecondList.runOps]
      exact ih (f.push v) (s.push v) (by simp [h])
    | pop =>
      rw [FirstList.runOps, SecondList.runOps]
      rw [FirstList.pop_fst_first, SecondList.pop_fst_second, h]
      rw [ih ((f.pop)).2 ((s.pop)).2 (by rw [FirstList.pop_snd_elems_first, SecondList.pop_snd_elems_second, h])]

/-- If `next` on a second.rs `IntoIter` returns `None`, the iterator wraps
the empty list. -/
theorem SecondIntoIter.exhausted_of_fst_none_into {T : Type} (a : SecondIntoIter T)
    (h : ((a.nextStep)).1 = none) : a = ⟨⟨none⟩⟩ := by
  obtain ⟨⟨hd⟩⟩ := a
  cases hd with
  | none => rfl
  | some node =>
    obtain ⟨e, nx⟩ := node
    simp [SecondIntoIter.nextStep, SecondList.pop] at h

/-- If `next` on a second.rs `Iter` returns `None`, its `next` field is
`None`. -/
theorem SecondIter.exhausted_of_fst_none_iter {T : Type} (b : SecondIter T)
    (h : ((b.nextStep)).1 = none) : b = ⟨none⟩ := by
  obtain ⟨nx⟩ := b
  cases nx with
  | none => rfl
  | some node =>
    obtain ⟨e, nx2⟩ := node
    simp [SecondIter.nextStep] at h

/-- If `next` on a second.rs `IterMut` returns `None`, its `next` field is
`None`. -/
theorem SecondIterMut.exhausted_of_fst_none_itermut {T : Type} (c : SecondIterMut T)
    (h : ((c.nextStep)).1 = none) : c = ⟨none⟩ := by
  obtain ⟨nx⟩ := c
  cases nx with
  | none => rfl
  | some node =>
    obtain ⟨e, nx2⟩ := node
    simp [SecondIterMut.nextStep] at h

/-- An exhausted second.rs `IntoIter` stays exhausted under `stepN`. -/
theorem SecondIntoIter.stepN_exhausted_into {T : Type} (k : Nat) :
    (⟨⟨none⟩⟩ : SecondIntoIter T).stepN k = ⟨⟨none⟩⟩ := by
  induction k with
  | zero => rfl
  | succ k ih =>
    rw [SecondIntoIter.stepN]
    exact ih

/-- An exhausted second.rs `Iter` stays exhausted under `stepN`. -/
theorem SecondIter.stepN_exhausted_iter {T : Type} (k : Nat) :
    (⟨none⟩ : SecondIter T).stepN k = ⟨none⟩ := by
  induction k with
  | zero => rfl
  | succ k ih =>
    rw [SecondIter.stepN]
    exact ih

/-- An exhausted second.rs `IterMut` stays exhausted under `stepN`. -/
theorem SecondIterMut.stepN_exhausted_itermut {T : Type} (k : Nat) :
    (⟨none⟩ : SecondIterMut T).stepN k = ⟨none⟩ := by
  induction k with
  | zero => rfl
  | succ k ih =>
    rw [SecondIterMut.stepN]
    exact ih

@[simp] theorem ThirdList.headElem_prepend {T : Type} (l : ThirdList T) (e : T) :
    (l.prepend e).headElem = some e := rfl

@[simp] theorem ThirdList.tail_prepend {T : Type} (l : ThirdList T) (e : T) :
    (l.prepend e).tail = l := rfl

@[simp] theorem ThirdList.elems_prepend {T : Type} (l : ThirdList T) (e : T) :
    (l.prepend e).elems = e :: l.elems := by
  simp [ThirdList.prepend, ThirdList.elems]

/-- Drop-glue depth of a third.rs node is one more than that of its tail. -/
@[simp] theorem ThirdNode.dropGlueDepth_mk {T : Type} (e : T) (next : ThirdLink T) :
    (ThirdNode.mk e next).dropGlueDepth = ThirdLink.dropGlueDepth next + 1 := by
  cases next <;> simp [ThirdNode.dropGlueDepth, ThirdLink.dropGlueDepth]

/-- The compiler-generated recursive drop glue for an `n`-node third.rs
chain nests `n` calls deep. -/
theorem ThirdList.ofLen_dropGlueDepth (n : Nat) :
    ThirdLink.dropGlueDepth ((ThirdList.ofLen n).head) = n := by
  induction n with
  | zero => rfl
  | succ n ih =>
    have h1 : (ThirdList.ofLen (n + 1)).head
        = some (ThirdNode.mk n (ThirdList.ofLen n).head) := rfl
    rw [h1, ThirdLink.dropGlueDepth, ThirdNode.dropGlueDepth_mk, ih]

/-- A second.rs list over `i32` whose elements are `[3, 2, 1]` is exactly
the three-node chain `3 → 2 → 1`. -/
theorem SecondList.eq_of_elems_321 (l : SecondList Int)
    (h : l.elems = [3, 2, 1]) :
    l = { head := some (SecondNode.mk 3 (some (SecondNode.mk 2
          (some (SecondNode.mk 1 none))))) } := by
  obtain ⟨h0⟩ := l
  cases h0 with
  | none => simp [SecondList.elems] at h
  | some n1 =>
    obtain ⟨e1, h1⟩ := n1
    cases h1 with
    | none => simp [SecondList.elems] at h
    | some n2 =>
      obtain ⟨e2, h2⟩ := n2
      cases h2 with
      | none => simp [SecondList.elems] at h
      | some n3 =>
        obtain ⟨e3, h3⟩ := n3
        cases h3 with
        | none =>
          simp [SecondList.elems] at h
          obtain ⟨r1, r2, r3⟩ := h
          subst r1
          subst r2
          subst r3
          rfl
        | some n4 =>
          obtain ⟨e4, h4⟩ := n4
          simp [SecondList.elems] at h

/-! ## The claims -/

/-- Claim C1: on both the first.rs stack and the second.rs stack over i32,
after pushing `e1, ..., en` in order on an empty stack, the `(i+1)`-st
successive `pop` returns the `i`-th entry of the reversed push sequence —
`some en, ..., some e1` for the first `n` pops — and the pop after those
(index `n`, where `getElem?` is out of range) returns `none`. -/
theorem c1_lifo_order (es : List Int) (i : Nat) :
    ((((FirstList.new.pushAll es).popTimes i).pop)).1 = (es.reverse)[i]? ∧
    (((((SecondList.new : SecondList Int).pushAll es).popTimes i).pop)).1 = (es.reverse)[i]? := by
  constructor
  · rw [FirstList.popTimes_pop_fst_first, FirstList.pushAll_elems_first]
    simp
  · rw [SecondList.popTimes_pop_fst_second, SecondList.pushAll_elems_second]
    simp

/-- Claim C2: for the third.rs persistent list, with
`a = new().prepend(1).prepend(2).prepend(3)`: `a.head()` is `3`,
`a.tail().head()` is `2`, `a.tail().tail().head()` is `1`,
`a.tail().tail().tail().head()` is `None`, one more `tail()` on that empty
list again gives an empty list whose `head()` is `None`, and in general
`tail()` of an empty list is an empty list. -/
theorem c2_persistent_list_views :
    ((((ThirdList.new.prepend (1 : Int)).prepend 2).prepend 3).headElem = some 3) ∧
    ((((ThirdList.new.prepend (1 : Int)).prepend 2).prepend 3).tail.headElem = some 2) ∧
    ((((ThirdList.new.prepend (1 : Int)).prepend 2).prepend 3).tail.tail.headElem = some 1) ∧
    ((((ThirdList.new.prepend (1 : Int)).prepend 2).prepend 3).tail.tail.tail.headElem = none) ∧
    ((((ThirdList.new.prepend (1 : Int)).prepend 2).prepend 3).tail.tail.tail.tail.headElem = none) ∧
    (∀ T : Type, (ThirdList.new : ThirdList T).tail = ThirdList.new) := by
  refine ⟨rfl, rfl, rfl, rfl, rfl, ?_⟩
  intro T
  rfl

/-- Claim C3: on freshly constructed structures, second.rs `pop`, `peek`
and `peek_mut` and third.rs `head` all return `none`; `pop` on the empty
list leaves the state unchanged, so any number of repeated pops still
returns `none` from the unchanged empty state. -/
theorem c3_empty_safety (T : Type) (k : Nat) :
    (SecondList.new : SecondList T).pop = (none, SecondList.new) ∧
    (SecondList.new : SecondList T).peek = none ∧
    (SecondList.new : SecondList T).peek_mut = none ∧
    (ThirdList.new : ThirdList T).headElem = none ∧
    (SecondList.new : SecondList T).popTimes k = SecondList.new ∧
    ((((SecondList.new : SecondList T).popTimes k).pop)).1 = none := by
  refine ⟨rfl, rfl, rfl, rfl, SecondList.popTimes_new k, ?_⟩
  rw [SecondList.popTimes_new k]
  rfl

/-- Claim C4: on a non-empty second.rs stack, `peek_mut` returns `some` of
the top element, and after writing `v` through that mutable reference a
subsequent `peek` returns `some v` and a subsequent `pop` returns `some v`
while leaving the same remainder as popping the original list would. -/
theorem c4_peek_mut_write (T : Type) (l : SecondList T) (node : SecondNode T)
    (v : T) (h : l.head = some node) :
    l.peek_mut = some node.elem ∧
    (l.peekMutWrite v).peek = some v ∧
    ((((l.peekMutWrite v).pop)).1 = some v) ∧
    ((((l.peekMutWrite v).pop)).2 = ((l.pop)).2) := by
  obtain ⟨hd⟩ := l
  change hd = some node at h
  subst h
  exact ⟨rfl, rfl, rfl, rfl⟩

/-- Witness for C4 at the concrete stack `[3]` with new value `42`. -/
theorem c4_witness :
    (⟨some (SecondNode.mk (3 : Int) none)⟩ : SecondList Int).peek_mut = some 3 ∧
    ((⟨some (SecondNode.mk (3 : Int) none)⟩ : SecondList Int).peekMutWrite 42).peek = some 42 ∧
    (((((⟨some (SecondNode.mk (3 : Int) none)⟩ : SecondList Int).peekMutWrite 42).pop)).1 = some 42) ∧
    (((((⟨some (SecondNode.mk (3 : Int) none)⟩ : SecondList Int).peekMutWrite 42).pop)).2 =
      (((⟨some (SecondNode.mk (3 : Int) none)⟩ : SecondList Int).pop)).2) :=
  c4_peek_mut_write Int ⟨some (SecondNode.mk 3 none)⟩ (SecondNode.mk 3 none) 42 rfl

/-- Claim C5: on a second.rs stack holding `[3, 2, 1]` top to bottom,
`iter()` yields `3, 2, 1` then `none` (so exactly three elements),
`iter_mut()` yields the same sequence, and `into_iter()` yields `3, 2, 1`
by value then `none`, with the wrapped stack empty afterwards. -/
theorem c5_iterator_order (l : SecondList Int) (h : l.elems = [3, 2, 1]) :
    ((((l.iter.nextStep)).1 = some 3) ∧
      (((((l.iter.nextStep)).2.nextStep)).1 = some 2) ∧
      (((((((l.iter.nextStep)).2.nextStep)).2.nextStep)).1 = some 1) ∧
      (((((((((l.iter.nextStep)).2.nextStep)).2.nextStep)).2.nextStep)).1 = none)) ∧
    ((((l.iter_mut.nextStep)).1 = some 3) ∧
      (((((l.iter_mut.nextStep)).2.nextStep)).1 = some 2) ∧
      (((((((l.iter_mut.nextStep)).2.nextStep)).2.nextStep)).1 = some 1) ∧
      (((((((((l.iter_mut.nextStep)).2.nextStep)).2.nextStep)).2.nextStep)).1 = none)) ∧
    ((((l.into_iter.nextStep)).1 = some 3) ∧
      (((((l.into_iter.nextStep)).2.nextStep)).1 = some 2) ∧
      (((((((l.into_iter.nextStep)).2.nextStep)).2.nextStep)).1 = some 1) ∧
      (((((((((l.into_iter.nextStep)).2.nextStep)).2.nextStep)).2.nextStep)).1 = none) ∧
      (((((((l.into_iter.nextStep)).2.nextStep)).2.nextStep)).2.list = SecondList.new)) := by
  rw [SecondList.eq_of_elems_321 l h]
  exact ⟨⟨rfl, rfl, rfl, rfl⟩, ⟨rfl, rfl, rfl, rfl⟩, ⟨rfl, rfl, rfl, rfl, rfl⟩⟩

/-- Witness for C5 at the concrete three-node stack `3 → 2 → 1`. -/
theorem c5_witness :
    ((⟨some (SecondNode.mk 3 (some (SecondNode.mk 2 (some (SecondNode.mk 1 none)))))⟩ :
      SecondList Int).iter.nextStep).1 = some 3 :=
  (c5_iterator_order
    ⟨some (SecondNode.mk 3 (some (SecondNode.mk 2 (some (SecondNode.mk 1 none)))))⟩
    (by simp [SecondList.elems])).1.1

/-- Claim C6: for each of the three second.rs traversal types, once `next`
returns `none`, every later call to `next` (after any number `k` of further
steps) still returns `none`. -/
theorem c6_exhaustion_idempotent (T : Type) (a : SecondIntoIter T)
    (b : SecondIter T) (c : SecondIterMut T) (k : Nat) :
    ((((a.nextStep)).1 = none → (((a.stepN k).nextStep)).1 = none) ∧
     ((((b.nextStep)).1 = none → (((b.stepN k).nextStep)).1 = none)) ∧
     ((((c.nextStep)).1 = none → (((c.stepN k).nextStep)).1 = none))) := by
  refine ⟨?_, ?_, ?_⟩
  · intro h
    rw [SecondIntoIter.exhausted_of_fst_none_into a h, SecondIntoIter.stepN_exhausted_into]
    rfl
  · intro h
    rw [SecondIter.exhausted_of_fst_none_iter b h, SecondIter.stepN_exhausted_iter]
    rfl
  · intro h
    rw [SecondIterMut.exhausted_of_fst_none_itermut c h, SecondIterMut.stepN_exhausted_itermut]
    rfl

/-- Witness for C6: exhausted traversals of each type, stepped twice more,
still return `none`. -/
theorem c6_witness :
    ((((⟨⟨none⟩⟩ : SecondIntoIter Int).stepN 2).nextStep)).1 = none ∧
    ((((⟨none⟩ : SecondIter Int).stepN 2).nextStep)).1 = none ∧
    ((((⟨none⟩ : SecondIterMut Int).stepN 2).nextStep)).1 = none :=
  ⟨(c6_exhaustion_idempotent Int ⟨⟨none⟩⟩ ⟨none⟩ ⟨none⟩ 2).1 rfl,
   (c6_exhaustion_idempotent Int ⟨⟨none⟩⟩ ⟨none⟩ ⟨none⟩ 2).2.1 rfl,
   (c6_exhaustion_idempotent Int ⟨⟨none⟩⟩ ⟨none⟩ ⟨none⟩ 2).2.2 rfl⟩

/-- Claim C7: third.rs `prepend` derives a new list without touching the
original: the new list's head is the new element, its tail is exactly the
original list (shared, not copied), its element sequence extends the
original's, and in the spec's instance `a = new().prepend(1).prepend(2).prepend(3)`,
after `b = a.prepend(99)` the list `a` still has head `3` (recovered both
directly and as `b.tail()`). -/
theorem c7_prepend_noninterference (T : Type) (a : ThirdList T) (e : T) :
    (a.prepend e).headElem = some e ∧
    (a.prepend e).tail = a ∧
    (a.prepend e).elems = e :: a.elems ∧
    ((((ThirdList.new.prepend (1 : Int)).prepend 2).prepend 3).prepend 99).tail.headElem
      = some 3 ∧
    (((ThirdList.new.prepend (1 : Int)).prepend 2).prepend 3).headElem = some 3 := by
  refine ⟨rfl, rfl, ?_, rfl, rfl⟩
  simp

/-- Claim C8 (evaluation at the failing input): third.rs has no `Drop`
impl, so releasing the last owner of a 100000-node chain runs the
compiler-generated drop glue with 100000 nested calls — the call depth
grows with the chain length instead of being bounded. -/
theorem c8_third_teardown_depth :
    ThirdLink.dropGlueDepth ((ThirdList.ofLen 100000).head) = 100000 :=
  ThirdList.ofLen_dropGlueDepth 100000

/-- Claim C9: started from empty, the first.rs stack and the second.rs
stack instantiated at i32 produce identical `pop` outputs on every script
of push/pop operations. -/
theorem c9_generic_refines_exclusive (ops : List StackOp) :
    FirstList.new.runOps ops = SecondList.new.runOps ops :=
  runOps_agree ops FirstList.new SecondList.new (by simp)

/-- Claim C10: pushing `e` on any second.rs stack and then popping returns
`some e` and restores exactly the previous stack; pushing then peeking
returns `some e`. -/
theorem c10_push_pop_roundtrip (T : Type) (s : SecondList T) (e : T) :
    (s.push e).pop = (some e, s) ∧ (s.push e).peek = some e :=
  ⟨rfl, rfl⟩
